import Mathlib

/-!
Verification development for the TiDB branch credential broker
(`src/tidb_agent.py`).  The Python module is shallowly embedded: each
relevant Python function becomes a Lean definition over an explicit
`World` record that carries the process-wide configuration, the
credential cache (the CSV store, modelled in memory), and the data the
control-plane API would return.  Network calls are recorded in a trace
of `NetCall` values so that claims about "zero network calls" or "one
admin-creation call" can be stated and proved.
-/

namespace TidbAgent

/-- Python truthiness of an optional string: `None` and `""` are falsy. -/
def truthyStr : Option String → Bool
  | none => false
  | some s => !s.isEmpty

/-- Python truthiness of an optional integer port: `None` and `0` are falsy. -/
def truthyPort : Option Nat → Bool
  | none => false
  | some n => n != 0

/-- The JSON body returned by `get_branch`: the `state` field, the
`displayName` field, and the `endpoints.public.host` / `endpoints.public.port`
fields; a missing field is `none` (Python `.get` returning `None`). -/
structure BranchInfo where
  state : Option String
  displayName : Option String
  host : Option String
  port : Option Nat
deriving DecidableEq

/-- One element of the `list_branches` response, as read by
`_resolve_branch_id` (`br.get("displayName")`, `br.get("branchId")`). -/
structure ListedBranch where
  displayName : Option String
  branchId : Option String
deriving DecidableEq

/-- The admin-user creation response after the defaulting reads
`admin_info.get("username", "")` and `admin_info.get("password", "")`. -/
structure AdminInfo where
  username : String
  password : String
deriving DecidableEq

/-- One cache record of `branch_credentials.csv`, with the seven columns
written by `_store_admin_credential`.  `host` and `port` may be absent
(`None` in Python, the empty CSV cell). -/
structure CredRecord where
  branchName : String
  clusterId : String
  username : String
  password : String
  host : Option String
  port : Option Nat
  database : String
deriving DecidableEq

/-- The dictionary returned by `_ensure_admin_credential`: the stored
fields plus the per-call provenance tag `source`. -/
structure Payload where
  source : String
  record : CredRecord
deriving DecidableEq

/-- The RuntimeError exits of the embedded code, one constructor per
`raise` site that the claims reason about. -/
inductive BrokerErr where
  | authConfig
  | noClusters
  | missingProjectId
  | branchNotFound (name : String)
  | timeout (branchId : String) (boundSeconds : Nat)
  | adminConfig
  | missingHost
  | missingPort
  | clientMissingHost
  | clientMissingPort
deriving DecidableEq

/-- Decidable equality for `Except`, so that concrete runs of the embedded
code can be checked by `decide`. -/
instance exceptDecEq {ε α : Type} [DecidableEq ε] [DecidableEq α] :
    DecidableEq (Except ε α) := fun x y =>
  match x, y with
  | .error a, .error b =>
      if h : a = b then .isTrue (by rw [h])
      else .isFalse (by intro hc; cases hc; exact h rfl)
  | .error _, .ok _ => .isFalse (by intro hc; cases hc)
  | .ok _, .error _ => .isFalse (by intro hc; cases hc)
  | .ok a, .ok b =>
      if h : a = b then .isTrue (by rw [h])
      else .isFalse (by intro hc; cases hc; exact h rfl)

/-- The network requests the manager can issue; resolution results carry a
trace of these. -/
inductive NetCall where
  | listClusters
  | listBranches
  | getBranch
  | createBranch
  | createAdminUser
  | deleteBranch
deriving DecidableEq

abbrev CacheKey := String × String

/-- The in-memory image of the CSV store: an association list keyed by
(branchName, clusterId), with at most one entry per key. -/
abbrev Cache := List (CacheKey × CredRecord)

/-- Lookup in the credential cache (`cache.get(key)` after
`_load_admin_credentials`). -/
def cacheGet : Cache → CacheKey → Option CredRecord
  | [], _ => none
  | (k, v) :: rest, key => if k = key then some v else cacheGet rest key

/-- Upsert into the credential cache (`cache[key] = entry` followed by the
full rewrite of the CSV). -/
def cacheSet : Cache → CacheKey → CredRecord → Cache
  | [], key, v => [(key, v)]
  | (k, v') :: rest, key, v =>
      if k = key then (key, v) :: rest else (k, v') :: cacheSet rest key v

/-- Removal from the credential cache (`del cache[key]` when present). -/
def cacheDel : Cache → CacheKey → Cache
  | [], _ => []
  | (k, v') :: rest, key =>
      if k = key then cacheDel rest key else (k, v') :: cacheDel rest key

/-- `_store_admin_credential`: upsert the seven stored columns of an entry
under its (branchName, clusterId) key. -/
def storeAdminCredential (c : Cache) (e : CredRecord) : Cache :=
  cacheSet c (e.branchName, e.clusterId) e

/-- `_get_cached_admin_credential`. -/
def getCachedAdminCredential (c : Cache) (branchName clusterId : String) :
    Option CredRecord :=
  cacheGet c (branchName, clusterId)

/-- `_delete_admin_credential`. -/
def deleteAdminCredential (c : Cache) (k : CacheKey) : Cache :=
  cacheDel c k

/-- `_resolve_branch_id`: scan the branch list, returning the `branchId`
field of the first element whose `displayName` equals the requested name;
`none` when no element matches (or the matching element has no id). -/
def resolveBranchId : List ListedBranch → String → Option String
  | [], _ => none
  | br :: rest, name =>
      if br.displayName = some name then br.branchId
      else resolveBranchId rest name

/-- `BranchManager._cluster` composed with the `cluster_id or ...` argument
defaulting used by the callers: a truthy explicit argument wins, else a
truthy memoized id, else `GET /clusters` adopts the first cluster (a
network call, memoized).  Returns the resolved id, the new memo, and the
trace of the call. -/
def resolveCluster (arg memo : Option String) (api : List String) :
    Except BrokerErr String × Option String × List NetCall :=
  if truthyStr arg then (.ok (arg.getD ""), memo, [])
  else if truthyStr memo then (.ok (memo.getD ""), memo, [])
  else
    match api with
    | [] => (.error .noClusters, memo, [.listClusters])
    | c :: _ => (.ok c, some c, [.listClusters])

/-- The process-wide state and the control-plane data visible to one call:
configuration globals, the memoized cluster id, the API responses
(clusters list, branch list, per-branch `get_branch` response sequence,
admin-user response), and the credential cache. -/
structure World where
  authConfigured : Bool
  projectId : Option String
  clusterIdEnv : Option String
  apiClusters : List String
  branches : List ListedBranch
  branchInfos : String → Nat → BranchInfo
  adminUser : AdminInfo
  defaultDatabase : Option String
  cache : Cache

/-- Outcome of `_wait_for_branch_active`: normal return after some number
of polls, or the RuntimeError carrying the `retries * delay_seconds`
bound. -/
inductive WaitResult where
  | active (pollsUsed : Nat)
  | timeout (boundSeconds : Nat)
deriving DecidableEq

/-- The polling loop of `_wait_for_branch_active`: poll index `idx`, with
`fuel` polls remaining; returns the poll count consumed on the first
ACTIVE observation, `none` when the budget runs out. -/
def waitPollAux (infos : Nat → BranchInfo) : Nat → Nat → Option Nat
  | _, 0 => none
  | idx, fuel + 1 =>
      if (infos idx).state = some "ACTIVE" then some (idx + 1)
      else waitPollAux infos (idx + 1) fuel

/-- `_wait_for_branch_active(manager, branch_id, retries, delay_seconds)`,
over the sequence of `get_branch` responses for that branch. -/
def waitForBranchActive (infos : Nat → BranchInfo) (retries delay : Nat) :
    WaitResult :=
  match waitPollAux infos 0 retries with
  | some k => .active k
  | none => .timeout (retries * delay)

/-- `create_admin_user_for_branch(project_id=None, cluster_id=...,
branch_name=...)`: re-resolves a falsy cluster argument through
`_cluster()`, requires project id, cluster id and branch name to be
truthy, then issues the POST and returns the admin response. -/
def createAdminUserForBranch (projectId : Option String)
    (memo : Option String) (api : List String) (clusterId bn : String)
    (admin : AdminInfo) :
    Except BrokerErr AdminInfo × Option String × List NetCall :=
  match resolveCluster (some clusterId) memo api with
  | (.error e, memo1, cs) => (.error e, memo1, cs)
  | (.ok rc, memo1, cs) =>
      if !truthyStr projectId || rc.isEmpty || bn.isEmpty then
        (.error .adminConfig, memo1, cs)
      else (.ok admin, memo1, cs ++ [.createAdminUser])

/-- Lines 335-342 of `_ensure_admin_credential`: reject a payload without
host, then without port, then fill an empty database from the configured
default. -/
def finalizePayload (defaultDb : Option String) (p : Payload) :
    Except BrokerErr Payload :=
  if !truthyStr p.record.host then .error .missingHost
  else if !truthyPort p.record.port then .error .missingPort
  else if truthyStr defaultDb && p.record.database.isEmpty then
    .ok ⟨p.source, { p.record with database := defaultDb.getD "" }⟩
  else .ok p

/-- What one `_ensure_admin_credential` call produces: the returned payload
or the raised error, the cache after the call, the memoized cluster id
after the call, and the trace of network calls in order. -/
structure EnsureResult where
  result : Except BrokerErr Payload
  cache : Cache
  memo : Option String
  calls : List NetCall

/-- The slow path of `_ensure_admin_credential` (cache miss or unusable
cached record): resolve the branch id from the branch list, wait for
ACTIVE with the default budget of 20 polls and 10-second delay, fetch
branch details, create the admin user, re-fetch details once if host or
port was missing, assemble and store the entry, then validate. -/
def slowPath (w : World) (bn cluster : String) (memo : Option String)
    (cs : List NetCall) : EnsureResult :=
  match resolveBranchId w.branches bn with
  | none => ⟨.error (.branchNotFound bn), w.cache, memo, cs ++ [.listBranches]⟩
  | some bid =>
    match waitForBranchActive (w.branchInfos bid) 20 10 with
    | .timeout bound =>
        ⟨.error (.timeout bid bound), w.cache, memo,
          cs ++ .listBranches :: List.replicate 20 .getBranch⟩
    | .active c =>
      let info0 := w.branchInfos bid c
      match createAdminUserForBranch w.projectId memo w.apiClusters cluster bn
          w.adminUser with
      | (.error e, memo2, cs2) =>
          ⟨.error e, w.cache, memo2,
            cs ++ .listBranches ::
              (List.replicate c .getBranch ++ [.getBranch] ++ cs2)⟩
      | (.ok admin, memo2, cs2) =>
        let needRefetch := !(truthyStr info0.host && truthyPort info0.port)
        let info := if needRefetch then w.branchInfos bid (c + 1) else info0
        let extra : List NetCall := if needRefetch then [.getBranch] else []
        let entry : CredRecord :=
          { branchName := bn
            clusterId := cluster
            username := admin.username
            password := admin.password
            host := info.host
            port := info.port
            database := if truthyStr w.defaultDatabase
              then w.defaultDatabase.getD "" else "" }
        ⟨finalizePayload w.defaultDatabase ⟨"created", entry⟩,
          storeAdminCredential w.cache entry, memo2,
          cs ++ .listBranches ::
            (List.replicate c .getBranch ++ [.getBranch] ++ cs2 ++ extra)⟩

/-- `_ensure_admin_credential(branch_name, cluster_id)`: manager
construction (auth configuration check), cluster resolution, project-id
check, cache lookup, fast path on a usable cached record, slow path
otherwise, and final validation. -/
def ensureAdminCredential (w : World) (bn : String) (clusterArg : Option String) :
    EnsureResult :=
  if w.authConfigured then
    match resolveCluster clusterArg w.clusterIdEnv w.apiClusters with
    | (.error e, memo1, cs) => ⟨.error e, w.cache, memo1, cs⟩
    | (.ok cluster, memo1, cs) =>
      if !truthyStr w.projectId then
        ⟨.error .missingProjectId, w.cache, memo1, cs⟩
      else
        match getCachedAdminCredential w.cache bn cluster with
        | some r =>
          if truthyStr r.host && truthyPort r.port then
            ⟨finalizePayload w.defaultDatabase ⟨"cache", r⟩, w.cache, memo1, cs⟩
          else slowPath w bn cluster memo1 cs
        | none => slowPath w bn cluster memo1 cs
  else ⟨.error .authConfig, w.cache, w.clusterIdEnv, []⟩

/-- The `delete_branch` tool after the DELETE call itself succeeded:
`postInfo` is the best-effort `get_branch` lookup on the already deleted
branch (`none` models the raised exception that the tool swallows).  When
the lookup yields a truthy display name the cached credential for
(displayName, cluster) is removed; any failure inside the try block is
ignored.  Returns the cache and the cluster memo after the call. -/
def deleteBranchTool (cache : Cache) (memo : Option String)
    (api : List String) (postInfo : Option BranchInfo) :
    Except BrokerErr (Cache × Option String) :=
  match resolveCluster none memo api with
  | (.error e, _, _) => .error e
  | (.ok _, memo1, _) =>
    match postInfo with
    | none => .ok (cache, memo1)
    | some info =>
      match info.displayName with
      | none => .ok (cache, memo1)
      | some dn =>
        if dn.isEmpty then .ok (cache, memo1)
        else
          match resolveCluster none memo1 api with
          | (.error _, memo2, _) => .ok (cache, memo2)
          | (.ok c2, memo2, _) =>
              .ok (deleteAdminCredential cache (dn, c2), memo2)

/-- Result of `client.execute(sql)` as consumed by the tools. -/
structure ExecResult where
  rowcount : Int
  success : Bool
  message : String
deriving DecidableEq

abbrev Row := List (String × String)

/-- The database connection collaborator: `query` materializes rows,
`exec` runs a write statement. -/
structure DbConn where
  query : String → List Row
  exec : String → ExecResult

/-- The JSON shape returned by `run_sql_on_branch`: a row set for the read
path, or rowcount, success flag and message for the write path. -/
inductive SqlOutcome where
  | rows (branch : String) (rows : List Row)
  | write (branch : String) (rowcount : Int) (success : Bool) (message : String)
deriving DecidableEq

/-- Python `str.strip()` over the character list: drop leading and
trailing whitespace. -/
def pyStrip (s : List Char) : List Char :=
  ((s.dropWhile Char.isWhitespace).reverse.dropWhile Char.isWhitespace).reverse

/-- List-level startswith: the first argument is the pattern. -/
def startsWithChars : List Char → List Char → Bool
  | [], _ => true
  | _ :: _, [] => false
  | p :: ps, c :: cs => p == c && startsWithChars ps cs

/-- The classification `sql.strip().lower().startswith("select")`,
character by character (ASCII lowering, as SQL keywords are ASCII). -/
def isSelect (sql : String) : Bool :=
  startsWithChars "select".data ((pyStrip sql.data).map Char.toLower)

/-- `run_sql_on_branch(branch_name, sql)`: resolve credentials with no
explicit cluster id, open the branch connection (which re-checks host and
port), then run the statement on the read or write path. -/
def runSqlOnBranch (w : World) (conn : DbConn) (bn sql : String) :
    Except BrokerErr SqlOutcome :=
  match (ensureAdminCredential w bn none).result with
  | .error e => .error e
  | .ok creds =>
    if !truthyStr creds.record.host then .error .clientMissingHost
    else if !truthyPort creds.record.port then .error .clientMissingPort
    else if isSelect sql then .ok (.rows bn (conn.query sql))
    else
      .ok (.write bn (conn.exec sql).rowcount (conn.exec sql).success
        (conn.exec sql).message)

/-! Helper lemmas about the polling loop. -/

lemma waitPollAux_some (infos : Nat → BranchInfo) :
    ∀ fuel idx k, waitPollAux infos idx fuel = some k →
      idx < k ∧ k ≤ idx + fuel ∧ (infos (k - 1)).state = some "ACTIVE" ∧
      ∀ j, idx ≤ j → j < k - 1 → (infos j).state ≠ some "ACTIVE" := by
  intro fuel
  induction fuel with
  | zero => intro idx k h; simp [waitPollAux] at h
  | succ n ih =>
    intro idx k h
    rw [waitPollAux] at h
    by_cases hs : (infos idx).state = some "ACTIVE"
    · rw [if_pos hs] at h
      cases h
      refine ⟨by omega, by omega, by simpa using hs, ?_⟩
      intro j hj hj'
      omega
    · rw [if_neg hs] at h
      obtain ⟨h1, h2, h3, h4⟩ := ih (idx + 1) k h
      refine ⟨by omega, by omega, h3, ?_⟩
      intro j hj hj'
      rcases Nat.eq_or_lt_of_le hj with rfl | hlt
      · exact hs
      · exact h4 j hlt hj'

lemma waitPollAux_none_of (infos : Nat → BranchInfo) :
    ∀ fuel idx,
      (∀ j, idx ≤ j → j < idx + fuel → (infos j).state ≠ some "ACTIVE") →
      waitPollAux infos idx fuel = none := by
  intro fuel
  induction fuel with
  | zero => intro idx _; simp [waitPollAux]
  | succ n ih =>
    intro idx h
    rw [waitPollAux]
    rw [if_neg (h idx (le_refl idx) (by omega))]
    exact ih (idx + 1) (fun j hj hj' => h j (by omega) (by omega))

/-- C4: `_wait_for_branch_active` performs at most `retries` polls of
`get_branch`, returns normally the first time a poll observes state
ACTIVE, and when `retries` consecutive polls never observe ACTIVE it
raises the timeout error carrying the bound `retries * delay` seconds. -/
theorem waitForBranchActive_spec (infos : Nat → BranchInfo)
    (retries delay : Nat) :
    (∀ k, waitForBranchActive infos retries delay = .active k →
      1 ≤ k ∧ k ≤ retries ∧ (infos (k - 1)).state = some "ACTIVE" ∧
      ∀ j, j < k - 1 → (infos j).state ≠ some "ACTIVE")
    ∧ ((∀ j, j < retries → (infos j).state ≠ some "ACTIVE") →
      waitForBranchActive infos retries delay = .timeout (retries * delay)) := by
  constructor
  · intro k h
    rw [waitForBranchActive] at h
    cases hp : waitPollAux infos 0 retries with
    | none => rw [hp] at h; cases h
    | some k0 =>
      rw [hp] at h
      cases h
      obtain ⟨h1, h2, h3, h4⟩ := waitPollAux_some infos retries 0 k hp
      exact ⟨h1, by omega, h3, fun j hj => h4 j (Nat.zero_le j) hj⟩
  · intro h
    rw [waitForBranchActive,
      waitPollAux_none_of infos retries 0 (fun j _ hj => h j (by omega))]

/-- Concrete instantiation of C4: the branch becomes ACTIVE on the second
poll for one response sequence, and a never-ACTIVE sequence with 3
retries and a 10-second delay times out carrying the 30-second bound. -/
theorem waitForBranchActive_spec_witness :
    ((fun n => if n = 1 then (⟨some "ACTIVE", none, none, none⟩ : BranchInfo)
        else ⟨some "CREATING", none, none, none⟩) 1).state = some "ACTIVE"
    ∧ (∀ j, j < 1 →
      ((fun n => if n = 1 then (⟨some "ACTIVE", none, none, none⟩ : BranchInfo)
        else ⟨some "CREATING", none, none, none⟩) j).state ≠ some "ACTIVE")
    ∧ waitForBranchActive
        (fun _ => ⟨some "CREATING", none, none, none⟩) 3 10 = .timeout 30 := by
  have h1 := (waitForBranchActive_spec
    (fun n => if n = 1 then (⟨some "ACTIVE", none, none, none⟩ : BranchInfo)
      else ⟨some "CREATING", none, none, none⟩) 5 10).1 2 (by decide)
  have h2 := (waitForBranchActive_spec
    (fun _ => (⟨some "CREATING", none, none, none⟩ : BranchInfo)) 3 10).2
    (by intro j _; decide)
  exact ⟨h1.2.2.1, h1.2.2.2, h2⟩

/-! Helper lemmas about the cache, cluster resolution and validation. -/

lemma truthyStr_some_iff (s : String) : truthyStr (some s) = true ↔ s ≠ "" := by
  simp only [truthyStr, Bool.not_eq_true']
  rw [show (s.isEmpty = false ↔ ¬s = "") from by
    rw [← String.isEmpty_iff s]; simp]

lemma cacheGet_cacheSet_self (c : Cache) (k : CacheKey) (v : CredRecord) :
    cacheGet (cacheSet c k v) k = some v := by
  induction c with
  | nil => simp [cacheGet, cacheSet]
  | cons hd tl ih =>
    obtain ⟨k0, v0⟩ := hd
    by_cases h : k0 = k
    · simp [cacheGet, cacheSet, h]
    · simp [cacheGet, cacheSet, h, ih]

lemma cacheGet_cacheDel_self (c : Cache) (k : CacheKey) :
    cacheGet (cacheDel c k) k = none := by
  induction c with
  | nil => simp [cacheGet, cacheDel]
  | cons hd tl ih =>
    obtain ⟨k0, v0⟩ := hd
    by_cases h : k0 = k
    · simp [cacheDel, h, ih]
    · simp [cacheGet, cacheDel, h, ih]

lemma resolveBranchId_eq_none (bs : List ListedBranch) (name : String)
    (h : ∀ b ∈ bs, b.displayName ≠ some name) :
    resolveBranchId bs name = none := by
  induction bs with
  | nil => rfl
  | cons hd tl ih =>
    rw [resolveBranchId, if_neg (h hd (by simp))]
    exact ih (fun b hb => h b (by simp [hb]))

lemma resolveCluster_truthyArg (arg memo : Option String)
    (api : List String) (h : truthyStr arg = true) :
    resolveCluster arg memo api = (.ok (arg.getD ""), memo, []) := by
  rw [resolveCluster.eq_def, if_pos h]

lemma finalizePayload_ok (d : Option String) (p q : Payload)
    (h : finalizePayload d p = .ok q) :
    q.source = p.source ∧ q.record.host = p.record.host ∧
    q.record.port = p.record.port ∧ truthyStr p.record.host = true ∧
    truthyPort p.record.port = true := by
  unfold finalizePayload at h
  split at h
  · simp at h
  · split at h
    · simp at h
    · rename_i h1 h2
      split at h <;> cases h <;>
        exact ⟨rfl, rfl, rfl, by simpa using h1, by simpa using h2⟩

lemma finalizePayload_ok_of (d : Option String) (p : Payload)
    (h1 : truthyStr p.record.host = true)
    (h2 : truthyPort p.record.port = true) :
    ∃ q, finalizePayload d p = .ok q ∧ q.source = p.source ∧
      q.record.host = p.record.host ∧ q.record.port = p.record.port := by
  unfold finalizePayload
  rw [h1, h2]
  simp only [Bool.not_true, Bool.false_eq_true, if_false]
  split
  · exact ⟨_, rfl, rfl, rfl, rfl⟩
  · exact ⟨_, rfl, rfl, rfl, rfl⟩

lemma createAdminUserForBranch_reduce (projectId memo : Option String)
    (api : List String) (clusterId bn : String) (admin : AdminInfo)
    (hp : truthyStr projectId = true) (hc : clusterId ≠ "") (hb : bn ≠ "") :
    createAdminUserForBranch projectId memo api clusterId bn admin =
      (.ok admin, memo, [.createAdminUser]) := by
  rw [createAdminUserForBranch,
    resolveCluster_truthyArg _ _ _ ((truthyStr_some_iff clusterId).2 hc)]
  simp [hp, hc, hb, String.isEmpty_iff]

lemma createAdminUserForBranch_ok_mem (projectId memo : Option String)
    (api : List String) (clusterId bn : String) (admin ad : AdminInfo)
    (m2 : Option String) (cs2 : List NetCall)
    (h : createAdminUserForBranch projectId memo api clusterId bn admin =
      (.ok ad, m2, cs2)) :
    .createAdminUser ∈ cs2 := by
  unfold createAdminUserForBranch at h
  split at h
  · simp at h
  · split at h
    · simp at h
    · obtain ⟨-, -, h3⟩ := Prod.mk.injEq .. ▸ h
      simp_all

/-! Inversion lemmas about the slow path and the full resolution. -/

lemma slowPath_ok (w : World) (bn cluster : String) (memo : Option String)
    (cs : List NetCall) (p : Payload)
    (h : (slowPath w bn cluster memo cs).result = .ok p) :
    p.source = "created" ∧ truthyStr p.record.host = true ∧
    truthyPort p.record.port = true ∧
    ∃ e : CredRecord,
      (slowPath w bn cluster memo cs).cache = cacheSet w.cache (bn, cluster) e ∧
      e.host = p.record.host ∧ e.port = p.record.port ∧
      truthyStr e.host = true ∧ truthyPort e.port = true := by
  rcases hr : resolveBranchId w.branches bn with _ | bid
  · simp [slowPath, hr] at h
  · rcases hw : waitForBranchActive (w.branchInfos bid) 20 10 with c | bound
    · rcases hadm : createAdminUserForBranch w.projectId memo w.apiClusters
        cluster bn w.adminUser with ⟨er | ad, memo2, cs2⟩
      · simp [slowPath, hr, hw, hadm] at h
      · simp only [slowPath, hr, hw, hadm] at h ⊢
        obtain ⟨hs, hh, hp2, hq1, hq2⟩ := finalizePayload_ok _ _ _ h
        refine ⟨hs, ?_, ?_, ⟨_, rfl, ?_, ?_, ?_, ?_⟩⟩ <;> simp_all
    · simp [slowPath, hr, hw] at h

lemma ensure_ok_hostport (w : World) (bn : String) (ca : Option String)
    (p : Payload) (h : (ensureAdminCredential w bn ca).result = .ok p) :
    truthyStr p.record.host = true ∧ truthyPort p.record.port = true := by
  by_cases hauth : w.authConfigured = true
  · rcases hrc : resolveCluster ca w.clusterIdEnv w.apiClusters with
      ⟨er | cl, memo1, cs⟩
    · simp [ensureAdminCredential, hauth, hrc] at h
    · by_cases hproj : truthyStr w.projectId = true
      · rcases hc : getCachedAdminCredential w.cache bn cl with _ | r
        · simp only [ensureAdminCredential, hauth, if_true, hrc, hproj,
            Bool.not_true, Bool.false_eq_true, if_false, hc] at h
          obtain ⟨-, h1, h2, -⟩ := slowPath_ok _ _ _ _ _ _ h
          exact ⟨h1, h2⟩
        · by_cases hu : (truthyStr r.host && truthyPort r.port) = true
          · simp only [ensureAdminCredential, hauth, if_true, hrc, hproj,
              Bool.not_true, Bool.false_eq_true, if_false, hc, hu] at h
            obtain ⟨-, hh, hp2, hq1, hq2⟩ := finalizePayload_ok _ _ _ h
            constructor <;> simp_all
          · simp only [ensureAdminCredential, hauth, if_true, hrc, hproj,
              Bool.not_true, Bool.false_eq_true, if_false, hc,
              Bool.if_false_left] at h
            rw [if_neg hu] at h
            obtain ⟨-, h1, h2, -⟩ := slowPath_ok _ _ _ _ _ _ h
            exact ⟨h1, h2⟩
      · simp [ensureAdminCredential, hauth, hrc, hproj] at h
  · simp [ensureAdminCredential, hauth] at h

lemma ensure_fastPath (w : World) (bn : String) (ca : Option String)
    (r : CredRecord) (hauth : w.authConfigured = true)
    (hca : truthyStr ca = true) (hproj : truthyStr w.projectId = true)
    (hc : cacheGet w.cache (bn, ca.getD "") = some r)
    (hh : truthyStr r.host = true) (hp2 : truthyPort r.port = true) :
    ensureAdminCredential w bn ca =
      ⟨finalizePayload w.defaultDatabase ⟨"cache", r⟩, w.cache,
        w.clusterIdEnv, []⟩ := by
  rw [ensureAdminCredential, if_pos hauth, resolveCluster_truthyArg _ _ _ hca]
  simp [getCachedAdminCredential, hproj, hc, hh, hp2]

lemma ensure_ok_usable (w : World) (bn : String) (ca : Option String)
    (p : Payload) (hca : truthyStr ca = true)
    (h : (ensureAdminCredential w bn ca).result = .ok p) :
    w.authConfigured = true ∧ truthyStr w.projectId = true ∧
    ∃ r, cacheGet (ensureAdminCredential w bn ca).cache (bn, ca.getD "") = some r ∧
      truthyStr r.host = true ∧ truthyPort r.port = true := by
  by_cases hauth : w.authConfigured = true
  · by_cases hproj : truthyStr w.projectId = true
    · refine ⟨hauth, hproj, ?_⟩
      rw [ensureAdminCredential, if_pos hauth,
        resolveCluster_truthyArg _ _ _ hca] at h ⊢
      simp only [hproj, Bool.not_true, Bool.false_eq_true, if_false] at h ⊢
      rcases hc : getCachedAdminCredential w.cache bn (ca.getD "") with _ | r
      · simp only [hc] at h ⊢
        obtain ⟨-, -, -, e, hcache, -, -, he1, he2⟩ :=
          slowPath_ok _ _ _ _ _ _ h
        rw [hcache]
        exact ⟨e, cacheGet_cacheSet_self _ _ _, he1, he2⟩
      · by_cases hu : (truthyStr r.host && truthyPort r.port) = true
        · simp only [hc, hu, if_true] at h ⊢
          have hc2 : cacheGet w.cache (bn, ca.getD "") = some r := hc
          rw [Bool.and_eq_true] at hu
          exact ⟨r, hc2, hu.1, hu.2⟩
        · simp only [hc] at h ⊢
          rw [if_neg hu] at h ⊢
          obtain ⟨-, -, -, e, hcache, -, -, he1, he2⟩ :=
            slowPath_ok _ _ _ _ _ _ h
          rw [hcache]
          exact ⟨e, cacheGet_cacheSet_self _ _ _, he1, he2⟩
    · rw [ensureAdminCredential, if_pos hauth,
        resolveCluster_truthyArg _ _ _ hca] at h
      simp [hproj] at h
  · simp [ensureAdminCredential, hauth] at h

lemma truthyStr_getD_ne (ca : Option String) (h : truthyStr ca = true) :
    ca.getD "" ≠ "" := by
  cases ca with
  | none => simp [truthyStr] at h
  | some s => simpa using (truthyStr_some_iff s).1 h

/-! Claim theorems. -/

/-- C9: every credential resolution raises the configuration error for a
missing TIDBCLOUD_PROJECT_ID before the cache is consulted: the error
comes back for every cache content, even a usable cached record, and no
network call is made when the cluster id is supplied. -/
theorem ensure_requires_project_id (w : World) (bn : String)
    (ca : Option String) (hauth : w.authConfigured = true)
    (hca : truthyStr ca = true) (hproj : truthyStr w.projectId = false) :
    (ensureAdminCredential w bn ca).result = .error .missingProjectId ∧
    (ensureAdminCredential w bn ca).calls = [] := by
  rw [ensureAdminCredential, if_pos hauth, resolveCluster_truthyArg _ _ _ hca]
  simp [hproj]

/-- Witness for C9: a world whose cache holds a usable record for the
requested key but whose project id is unset still gets the configuration
error. -/
theorem ensure_requires_project_id_witness :
    (ensureAdminCredential
      ⟨true, none, some "c1", [], [],
        fun _ _ => ⟨none, none, none, none⟩, ⟨"", ""⟩, none,
        [(("b", "c1"), ⟨"b", "c1", "u", "pw", some "h", some 4000, "d"⟩)]⟩
      "b" (some "c1")).result = .error .missingProjectId ∧
    (ensureAdminCredential
      ⟨true, none, some "c1", [], [],
        fun _ _ => ⟨none, none, none, none⟩, ⟨"", ""⟩, none,
        [(("b", "c1"), ⟨"b", "c1", "u", "pw", some "h", some 4000, "d"⟩)]⟩
      "b" (some "c1")).calls = [] :=
  ensure_requires_project_id _ "b" (some "c1") (by decide) (by decide)
    (by decide)

/-- C7: the resolution validates the payload before returning: a payload
whose host is missing raises the missing-host error, one whose port is
missing raises the missing-port error, an empty database with a
configured process-wide default is filled from the default instead of
failing, and consequently a successfully returned record always has a
truthy host and port. -/
theorem ensure_validates_before_return :
    (∀ (w : World) (bn : String) (ca : Option String) (p : Payload),
      (ensureAdminCredential w bn ca).result = .ok p →
      truthyStr p.record.host = true ∧ truthyPort p.record.port = true)
    ∧ (∀ (d : Option String) (pay : Payload),
        truthyStr pay.record.host = false →
        finalizePayload d pay = .error .missingHost)
    ∧ (∀ (d : Option String) (pay : Payload),
        truthyStr pay.record.host = true → truthyPort pay.record.port = false →
        finalizePayload d pay = .error .missingPort)
    ∧ (∀ (d : Option String) (pay : Payload),
        truthyStr pay.record.host = true → truthyPort pay.record.port = true →
        truthyStr d = true → pay.record.database = "" →
        finalizePayload d pay =
          .ok ⟨pay.source, { pay.record with database := d.getD "" }⟩) := by
  refine ⟨fun w bn ca p h => ensure_ok_hostport w bn ca p h, ?_, ?_, ?_⟩
  · intro d pay h1
    simp [finalizePayload, h1]
  · intro d pay h1 h2
    simp [finalizePayload, h1, h2]
  · intro d pay h1 h2 h3 h4
    have he : pay.record.database.isEmpty = true := by rw [h4]; decide
    simp [finalizePayload, h1, h2, h3, he]

/-- Witness for C7: a returned record from a usable cache hit has truthy
host and port; a hostless payload errors; a portless payload errors; an
empty database is filled from the default "db0". -/
theorem ensure_validates_before_return_witness :
    (truthyStr (⟨"b", "c1", "u", "pw", some "h", some 4000, "d"⟩ :
        CredRecord).host = true ∧
      truthyPort (⟨"b", "c1", "u", "pw", some "h", some 4000, "d"⟩ :
        CredRecord).port = true)
    ∧ finalizePayload (some "db0")
        ⟨"cache", ⟨"b", "c1", "u", "pw", none, some 4000, ""⟩⟩ =
        .error .missingHost
    ∧ finalizePayload (some "db0")
        ⟨"cache", ⟨"b", "c1", "u", "pw", some "h", none, ""⟩⟩ =
        .error .missingPort
    ∧ finalizePayload (some "db0")
        ⟨"cache", ⟨"b", "c1", "u", "pw", some "h", some 4000, ""⟩⟩ =
        .ok ⟨"cache", ⟨"b", "c1", "u", "pw", some "h", some 4000, "db0"⟩⟩ := by
  refine ⟨?_, ?_, ?_, ?_⟩
  · exact ensure_validates_before_return.1
      ⟨true, some "p", some "c1", [], [],
        fun _ _ => ⟨none, none, none, none⟩, ⟨"", ""⟩, none,
        [(("b", "c1"), ⟨"b", "c1", "u", "pw", some "h", some 4000, "d"⟩)]⟩
      "b" (some "c1") ⟨"cache", ⟨"b", "c1", "u", "pw", some "h", some 4000, "d"⟩⟩
      (by decide)
  · exact ensure_validates_before_return.2.1 (some "db0")
      ⟨"cache", ⟨"b", "c1", "u", "pw", none, some 4000, ""⟩⟩ (by decide)
  · exact ensure_validates_before_return.2.2.1 (some "db0")
      ⟨"cache", ⟨"b", "c1", "u", "pw", some "h", none, ""⟩⟩ (by decide) (by decide)
  · exact ensure_validates_before_return.2.2.2 (some "db0")
      ⟨"cache", ⟨"b", "c1", "u", "pw", some "h", some 4000, ""⟩⟩ (by decide)
      (by decide) (by decide) (by decide)

/-- A stored record with empty database field, usable host and port. -/
def c1rec : CredRecord := ⟨"b", "c1", "u", "pw", some "h", some 4000, ""⟩

/-- A world with a configured default database and `c1rec` cached. -/
def c1world : World :=
  ⟨true, some "p", some "c1", [], [], fun _ _ => ⟨none, none, none, none⟩,
    ⟨"", ""⟩, some "db0", [(("b", "c1"), c1rec)]⟩

/-- Counterexample to C1 as stated: with a usable cached record whose
database field is empty and a configured process-wide default database,
the fast path returns the record with the database filled in, which is
not exactly the stored record. -/
theorem ensure_cache_hit_not_exact_record :
    cacheGet c1world.cache ("b", "c1") = some c1rec
    ∧ truthyStr c1rec.host = true ∧ truthyPort c1rec.port = true
    ∧ (ensureAdminCredential c1world "b" (some "c1")).result =
        .ok ⟨"cache", { c1rec with database := "db0" }⟩
    ∧ ({ c1rec with database := "db0" } : CredRecord) ≠ c1rec := by decide

/-- C1 (amended): for any key whose cache entry has truthy host and port,
the resolution returns the stored record tagged source "cache" — with the
single exception that an empty database field is filled from the
configured process-wide default — and makes zero network calls, leaving
the cache unchanged. -/
theorem ensure_cache_fast_path (w : World) (bn : String) (ca : Option String)
    (r : CredRecord) (hauth : w.authConfigured = true)
    (hca : truthyStr ca = true) (hproj : truthyStr w.projectId = true)
    (hc : cacheGet w.cache (bn, ca.getD "") = some r)
    (hh : truthyStr r.host = true) (hp2 : truthyPort r.port = true) :
    (ensureAdminCredential w bn ca).result =
      .ok ⟨"cache",
        if truthyStr w.defaultDatabase && r.database.isEmpty then
          { r with database := w.defaultDatabase.getD "" } else r⟩
    ∧ (ensureAdminCredential w bn ca).calls = []
    ∧ (ensureAdminCredential w bn ca).cache = w.cache := by
  rw [ensure_fastPath w bn ca r hauth hca hproj hc hh hp2]
  refine ⟨?_, rfl, rfl⟩
  show finalizePayload w.defaultDatabase ⟨"cache", r⟩ = _
  rw [finalizePayload]
  simp only [hh, hp2, Bool.not_true, Bool.false_eq_true, if_false]
  split
  · rfl
  · rfl

/-- Witness for the amended C1: a usable cached record with a non-empty
database field comes back exactly as stored with provenance "cache" and
an empty trace. -/
theorem ensure_cache_fast_path_witness :
    (ensureAdminCredential
      ⟨true, some "p", some "c1", [], [],
        fun _ _ => ⟨none, none, none, none⟩, ⟨"", ""⟩, some "db0",
        [(("b", "c1"), ⟨"b", "c1", "u", "pw", some "h", some 4000, "d"⟩)]⟩
      "b" (some "c1")).result =
      .ok ⟨"cache",
        if truthyStr (some "db0") &&
            (⟨"b", "c1", "u", "pw", some "h", some 4000, "d"⟩ :
              CredRecord).database.isEmpty then
          { (⟨"b", "c1", "u", "pw", some "h", some 4000, "d"⟩ : CredRecord) with
            database := "db0" }
        else ⟨"b", "c1", "u", "pw", some "h", some 4000, "d"⟩⟩
    ∧ (ensureAdminCredential
      ⟨true, some "p", some "c1", [], [],
        fun _ _ => ⟨none, none, none, none⟩, ⟨"", ""⟩, some "db0",
        [(("b", "c1"), ⟨"b", "c1", "u", "pw", some "h", some 4000, "d"⟩)]⟩
      "b" (some "c1")).calls = []
    ∧ (ensureAdminCredential
      ⟨true, some "p", some "c1", [], [],
        fun _ _ => ⟨none, none, none, none⟩, ⟨"", ""⟩, some "db0",
        [(("b", "c1"), ⟨"b", "c1", "u", "pw", some "h", some 4000, "d"⟩)]⟩
      "b" (some "c1")).cache =
      [(("b", "c1"), ⟨"b", "c1", "u", "pw", some "h", some 4000, "d"⟩)] :=
  ensure_cache_fast_path _ "b" (some "c1")
    ⟨"b", "c1", "u", "pw", some "h", some 4000, "d"⟩
    (by decide) (by decide) (by decide) (by decide) (by decide) (by decide)

/-- A world whose branch "b" is ACTIVE but never exposes endpoints, so a
slow-path run stores an unusable record and then fails validation. -/
def c2worldA : World :=
  ⟨true, some "p", some "c1", [], [⟨some "b", some "bid"⟩],
    fun _ _ => ⟨some "ACTIVE", some "b", none, none⟩, ⟨"u", "pw"⟩, none, []⟩

/-- The same world after the first resolution call wrote its cache. -/
def c2worldB : World :=
  { c2worldA with cache := (ensureAdminCredential c2worldA "b" (some "c1")).cache }

/-- Counterexample to C2 as stated: the first call completed its cache
write (the key is present afterwards and an admin-creation call was
made), yet a second call for the same key issues another admin-creation
call, because the written record lacks host and port and misses the fast
path. -/
theorem ensure_second_call_admin_again :
    cacheGet (ensureAdminCredential c2worldA "b" (some "c1")).cache ("b", "c1") =
      some ⟨"b", "c1", "u", "pw", none, none, ""⟩
    ∧ .createAdminUser ∈ (ensureAdminCredential c2worldA "b" (some "c1")).calls
    ∧ .createAdminUser ∈ (ensureAdminCredential c2worldB "b" (some "c1")).calls := by
  decide

/-- C2 (amended): when the first resolution call for a key returns
successfully — so the cache holds a usable record for that key — a second
call for the same key in any later world sharing the process
configuration and that cache takes the fast path: it returns provenance
"cache" and makes no network calls at all, in particular no second
admin-creation call. -/
theorem ensure_idempotent_after_success (w w2 : World) (bn : String)
    (ca : Option String) (p1 : Payload) (hca : truthyStr ca = true)
    (h1 : (ensureAdminCredential w bn ca).result = .ok p1)
    (hauth : w2.authConfigured = w.authConfigured)
    (hproj : w2.projectId = w.projectId)
    (hcache : w2.cache = (ensureAdminCredential w bn ca).cache) :
    (∃ p2, (ensureAdminCredential w2 bn ca).result = .ok p2 ∧
      p2.source = "cache")
    ∧ (ensureAdminCredential w2 bn ca).calls = [] := by
  obtain ⟨ha, hp, r, hcr, hh, hpp⟩ := ensure_ok_usable w bn ca p1 hca h1
  have h2 := ensure_fastPath w2 bn ca r (by rw [hauth, ha]) hca
    (by rw [hproj]; exact hp) (by rw [hcache]; exact hcr) hh hpp
  rw [h2]
  obtain ⟨q, hq, hqs, -, -⟩ :=
    finalizePayload_ok_of w2.defaultDatabase ⟨"cache", r⟩ hh hpp
  exact ⟨⟨q, hq, hqs⟩, rfl⟩

/-- Witness for the amended C2: a successful slow-path call stores a
usable record; the follow-up call for the same key returns from cache
with an empty trace. -/
theorem ensure_idempotent_after_success_witness :
    (∃ p2, (ensureAdminCredential
      ⟨true, some "p", some "c1", [], [⟨some "b", some "bid"⟩],
        fun _ _ => ⟨some "ACTIVE", some "b", some "h1", some 4001⟩,
        ⟨"u", "pw"⟩, none,
        (ensureAdminCredential
          ⟨true, some "p", some "c1", [], [⟨some "b", some "bid"⟩],
            fun _ _ => ⟨some "ACTIVE", some "b", some "h1", some 4001⟩,
            ⟨"u", "pw"⟩, none, []⟩ "b" (some "c1")).cache⟩
      "b" (some "c1")).result = .ok p2 ∧ p2.source = "cache")
    ∧ (ensureAdminCredential
      ⟨true, some "p", some "c1", [], [⟨some "b", some "bid"⟩],
        fun _ _ => ⟨some "ACTIVE", some "b", some "h1", some 4001⟩,
        ⟨"u", "pw"⟩, none,
        (ensureAdminCredential
          ⟨true, some "p", some "c1", [], [⟨some "b", some "bid"⟩],
            fun _ _ => ⟨some "ACTIVE", some "b", some "h1", some 4001⟩,
            ⟨"u", "pw"⟩, none, []⟩ "b" (some "c1")).cache⟩
      "b" (some "c1")).calls = [] :=
  ensure_idempotent_after_success
    ⟨true, some "p", some "c1", [], [⟨some "b", some "bid"⟩],
      fun _ _ => ⟨some "ACTIVE", some "b", some "h1", some 4001⟩,
      ⟨"u", "pw"⟩, none, []⟩ _ "b" (some "c1")
    ⟨"created", ⟨"b", "c1", "u", "pw", some "h1", some 4001, ""⟩⟩
    (by decide) (by decide) (by decide) (by decide) (by decide)

lemma resolveCluster_none_memo (memo : Option String) (api : List String)
    (h : truthyStr memo = true) :
    resolveCluster none memo api = (.ok (memo.getD ""), memo, []) := by
  rw [resolveCluster.eq_def]
  rw [if_neg (by decide : ¬ (truthyStr (none : Option String) = true))]
  rw [if_pos h]

/-- A usable cached record owned by branch "b" on cluster "c1". -/
def c3rec : CredRecord := ⟨"b", "c1", "u", "pw", some "h", some 4000, "d"⟩

/-- The cache holding `c3rec`. -/
def c3cache : Cache := [(("b", "c1"), c3rec)]

/-- A world that still holds `c3cache` after a delete whose best-effort
lookup failed. -/
def c3world : World :=
  ⟨true, some "p", some "c1", [], [], fun _ _ => ⟨none, none, none, none⟩,
    ⟨"", ""⟩, none, c3cache⟩

/-- Counterexample to C3 as stated: `delete_branch` succeeds (the lookup
of the deleted branch raises and is swallowed, modelled by `none`), the
cache entry survives, and the next resolution for the same key returns
the stale cached record with provenance "cache". -/
theorem delete_branch_stale_credential :
    deleteBranchTool c3cache (some "c1") [] none = .ok (c3cache, some "c1")
    ∧ (ensureAdminCredential c3world "b" (some "c1")).result =
        .ok ⟨"cache", c3rec⟩ := by decide

/-- C3 (amended): when `delete_branch` succeeds and its best-effort
lookup also succeeds — the post-delete `get_branch` returns the display
name — the cache entry for (displayName, clusterId) is removed, a
subsequent lookup for that key misses, and any later successful
resolution for that key is provenance "created", never the stale cached
record. -/
theorem delete_branch_invalidates (cache : Cache) (memo : Option String)
    (api : List String) (info : BranchInfo) (dn c : String)
    (cs : List NetCall) (hdn : info.displayName = some dn)
    (hne : dn.isEmpty = false)
    (hrc : resolveCluster none memo api = (.ok c, some c, cs))
    (hcne : c ≠ "") :
    deleteBranchTool cache memo api (some info) =
      .ok (deleteAdminCredential cache (dn, c), some c)
    ∧ cacheGet (deleteAdminCredential cache (dn, c)) (dn, c) = none
    ∧ ∀ (w2 : World) (p : Payload),
        w2.cache = deleteAdminCredential cache (dn, c) →
        (ensureAdminCredential w2 dn (some c)).result = .ok p →
        p.source = "created" := by
  have hca : truthyStr (some c) = true := (truthyStr_some_iff c).2 hcne
  refine ⟨?_, ?_, ?_⟩
  · rw [deleteBranchTool.eq_def, hrc]
    simp only [hdn]
    rw [if_neg (by simp [hne])]
    rw [resolveCluster_none_memo (some c) api hca]
    rfl
  · exact cacheGet_cacheDel_self cache (dn, c)
  · intro w2 p hw2 hok
    by_cases hauth : w2.authConfigured = true
    · by_cases hproj : truthyStr w2.projectId = true
      · rw [ensureAdminCredential, if_pos hauth,
          resolveCluster_truthyArg _ _ _ hca] at hok
        simp only [hproj, Bool.not_true, Bool.false_eq_true, if_false] at hok
        have hmiss : getCachedAdminCredential w2.cache dn
            ((some c).getD "") = none := by
          show cacheGet w2.cache (dn, c) = none
          rw [hw2, deleteAdminCredential]
          exact cacheGet_cacheDel_self cache (dn, c)
        simp only [hmiss] at hok
        exact (slowPath_ok _ _ _ _ _ _ hok).1
      · rw [ensureAdminCredential, if_pos hauth,
          resolveCluster_truthyArg _ _ _ hca] at hok
        simp [hproj] at hok
    · simp [ensureAdminCredential, hauth] at hok

/-- Witness for the amended C3: a concrete delete with a successful
lookup removes the entry, the lookup misses, and the next successful
resolution is provenance "created". -/
theorem delete_branch_invalidates_witness :
    deleteBranchTool c3cache (some "c1") []
      (some ⟨some "ACTIVE", some "b", none, none⟩) =
      .ok (deleteAdminCredential c3cache ("b", "c1"), some "c1")
    ∧ cacheGet (deleteAdminCredential c3cache ("b", "c1")) ("b", "c1") = none
    ∧ (⟨"created", ⟨"b", "c1", "u", "pw", some "h1", some 4001, ""⟩⟩ :
        Payload).source = "created" := by
  have h := delete_branch_invalidates c3cache (some "c1") []
    ⟨some "ACTIVE", some "b", none, none⟩ "b" "c1" [] (by decide) (by decide)
    (by decide) (by decide)
  refine ⟨h.1, h.2.1, ?_⟩
  exact h.2.2
    ⟨true, some "p", some "c1", [], [⟨some "b", some "bid"⟩],
      fun _ _ => ⟨some "ACTIVE", some "b", some "h1", some 4001⟩,
      ⟨"u", "pw"⟩, none, deleteAdminCredential c3cache ("b", "c1")⟩
    ⟨"created", ⟨"b", "c1", "u", "pw", some "h1", some 4001, ""⟩⟩
    (by decide) (by decide)

/-- C5: on the slow path, when the first branch-details fetch lacks a
usable host or port, exactly one re-fetch happens, placed after the
admin-creation call (the trace is the branch list call, the wait polls,
one details fetch, the admin-creation call, then a single extra details
fetch — no second poll loop), and when that second fetch is populated the
resolved record carries the second fetch's host and port. -/
theorem ensure_endpoint_recovery (w : World) (bn : String)
    (ca : Option String) (bid : String) (c : Nat)
    (hca : truthyStr ca = true) (hauth : w.authConfigured = true)
    (hproj : truthyStr w.projectId = true) (hbn : bn ≠ "")
    (hmiss : cacheGet w.cache (bn, ca.getD "") = none)
    (hbid : resolveBranchId w.branches bn = some bid)
    (hwait : waitForBranchActive (w.branchInfos bid) 20 10 = .active c)
    (hfirst : (truthyStr (w.branchInfos bid c).host &&
      truthyPort (w.branchInfos bid c).port) = false)
    (hh2 : truthyStr (w.branchInfos bid (c + 1)).host = true)
    (hp2 : truthyPort (w.branchInfos bid (c + 1)).port = true) :
    ∃ p, (ensureAdminCredential w bn ca).result = .ok p ∧
      p.source = "created" ∧
      p.record.host = (w.branchInfos bid (c + 1)).host ∧
      p.record.port = (w.branchInfos bid (c + 1)).port ∧
      (ensureAdminCredential w bn ca).calls =
        .listBranches :: (List.replicate c .getBranch ++
          [.getBranch, .createAdminUser, .getBranch]) := by
  have hget := truthyStr_getD_ne ca hca
  rw [ensureAdminCredential, if_pos hauth, resolveCluster_truthyArg _ _ _ hca]
  simp only [hproj, Bool.not_true, Bool.false_eq_true, if_false,
    getCachedAdminCredential, hmiss]
  simp only [slowPath, hbid, hwait,
    createAdminUserForBranch_reduce w.projectId w.clusterIdEnv w.apiClusters
      (ca.getD "") bn w.adminUser hproj hget hbn,
    hfirst, Bool.not_false, if_true, List.nil_append]
  obtain ⟨q, hq, hqs, hqh, hqp⟩ := finalizePayload_ok_of w.defaultDatabase
    ⟨"created", ⟨bn, ca.getD "", w.adminUser.username, w.adminUser.password,
      (w.branchInfos bid (c + 1)).host, (w.branchInfos bid (c + 1)).port,
      if truthyStr w.defaultDatabase then w.defaultDatabase.getD "" else ""⟩⟩
    hh2 hp2
  refine ⟨q, hq, hqs, hqh, hqp, ?_⟩
  simp

/-- Witness for C5: the branch is ACTIVE on the first poll, the details
fetched next have no endpoints, and the post-admin re-fetch exposes
host "h1" and port 4001, which the resolved record carries. -/
theorem ensure_endpoint_recovery_witness :
    ∃ p, (ensureAdminCredential
      ⟨true, some "p", some "c1", [], [⟨some "b", some "bid"⟩],
        fun _ n => if n ≤ 1 then ⟨some "ACTIVE", some "b", none, none⟩
          else ⟨some "ACTIVE", some "b", some "h1", some 4001⟩,
        ⟨"u", "pw"⟩, none, []⟩ "b" (some "c1")).result = .ok p ∧
      p.source = "created" ∧
      p.record.host =
        ((fun (_ : String) (n : Nat) =>
          if n ≤ 1 then (⟨some "ACTIVE", some "b", none, none⟩ : BranchInfo)
          else ⟨some "ACTIVE", some "b", some "h1", some 4001⟩) "bid" 2).host ∧
      p.record.port =
        ((fun (_ : String) (n : Nat) =>
          if n ≤ 1 then (⟨some "ACTIVE", some "b", none, none⟩ : BranchInfo)
          else ⟨some "ACTIVE", some "b", some "h1", some 4001⟩) "bid" 2).port ∧
      (ensureAdminCredential
        ⟨true, some "p", some "c1", [], [⟨some "b", some "bid"⟩],
          fun _ n => if n ≤ 1 then ⟨some "ACTIVE", some "b", none, none⟩
            else ⟨some "ACTIVE", some "b", some "h1", some 4001⟩,
          ⟨"u", "pw"⟩, none, []⟩ "b" (some "c1")).calls =
        .listBranches :: (List.replicate 1 .getBranch ++
          [.getBranch, .createAdminUser, .getBranch]) :=
  ensure_endpoint_recovery
    ⟨true, some "p", some "c1", [], [⟨some "b", some "bid"⟩],
      fun _ n => if n ≤ 1 then ⟨some "ACTIVE", some "b", none, none⟩
        else ⟨some "ACTIVE", some "b", some "h1", some 4001⟩,
      ⟨"u", "pw"⟩, none, []⟩ "b" (some "c1") "bid" 1
    (by decide) (by decide) (by decide) (by decide) (by decide) (by decide)
    (by decide) (by decide) (by decide) (by decide)

lemma slowPath_cache_or_admin (w : World) (bn cluster : String)
    (memo : Option String) (cs : List NetCall) :
    (slowPath w bn cluster memo cs).cache = w.cache ∨
    .createAdminUser ∈ (slowPath w bn cluster memo cs).calls := by
  rcases hr : resolveBranchId w.branches bn with _ | bid
  · left; simp [slowPath, hr]
  · rcases hw : waitForBranchActive (w.branchInfos bid) 20 10 with c | bound
    · rcases hadm : createAdminUserForBranch w.projectId memo w.apiClusters
        cluster bn w.adminUser with ⟨er | ad, memo2, cs2⟩
      · left; simp [slowPath, hr, hw, hadm]
      · right
        have hm := createAdminUserForBranch_ok_mem _ _ _ _ _ _ _ _ _ hadm
        simp only [slowPath, hr, hw, hadm]
        simp [List.mem_append, hm]
    · left; simp [slowPath, hr, hw]

lemma ensure_cache_or_admin (w : World) (bn : String) (ca : Option String) :
    (ensureAdminCredential w bn ca).cache = w.cache ∨
    .createAdminUser ∈ (ensureAdminCredential w bn ca).calls := by
  by_cases hauth : w.authConfigured = true
  · rcases hrc : resolveCluster ca w.clusterIdEnv w.apiClusters with
      ⟨er | cl, memo1, cs⟩
    · left; simp [ensureAdminCredential, hauth, hrc]
    · by_cases hproj : truthyStr w.projectId = true
      · rcases hc : getCachedAdminCredential w.cache bn cl with _ | r
        · simp only [ensureAdminCredential, hauth, if_true, hrc, hproj,
            Bool.not_true, Bool.false_eq_true, if_false, hc]
          exact slowPath_cache_or_admin w bn cl memo1 cs
        · by_cases hu : (truthyStr r.host && truthyPort r.port) = true
          · left
            simp [ensureAdminCredential, hauth, hrc, hproj, hc, hu]
          · simp only [ensureAdminCredential, hauth, if_true, hrc, hproj,
              Bool.not_true, Bool.false_eq_true, if_false, hc]
            rw [if_neg hu]
            exact slowPath_cache_or_admin w bn cl memo1 cs
      · left; simp [ensureAdminCredential, hauth, hrc, hproj]
  · left; simp [ensureAdminCredential, hauth]

/-- A world whose branch "b" is ACTIVE but never exposes endpoints. -/
def c6world : World :=
  ⟨true, some "p", some "c1", [], [⟨some "b", some "bid"⟩],
    fun _ _ => ⟨some "ACTIVE", some "b", none, none⟩, ⟨"u", "pw"⟩, none, []⟩

/-- Counterexample to C6 as stated: the slow path fails with the
incomplete-endpoint error, yet a record lacking host and port has been
written to the cache (the store runs before validation). -/
theorem ensure_incomplete_endpoint_writes_cache :
    (ensureAdminCredential c6world "b" (some "c1")).result =
      .error .missingHost
    ∧ cacheGet (ensureAdminCredential c6world "b" (some "c1")).cache
        ("b", "c1") = some ⟨"b", "c1", "u", "pw", none, none, ""⟩
    ∧ truthyStr (⟨"b", "c1", "u", "pw", none, none, ""⟩ :
        CredRecord).host = false := by decide

/-- C6 (amended): a cache record is persisted only when an admin-creation
call was made, but regardless of endpoint completeness: when the slow
path fails with the incomplete-endpoint error after the re-fetch, the
record lacking a host has nevertheless been written to the cache. -/
theorem ensure_store_despite_incomplete_endpoints :
    (∀ (w : World) (bn : String) (ca : Option String),
      .createAdminUser ∉ (ensureAdminCredential w bn ca).calls →
      (ensureAdminCredential w bn ca).cache = w.cache)
    ∧ (∀ (w : World) (bn : String) (ca : Option String) (bid : String)
        (c : Nat),
      truthyStr ca = true → w.authConfigured = true →
      truthyStr w.projectId = true → bn ≠ "" →
      cacheGet w.cache (bn, ca.getD "") = none →
      resolveBranchId w.branches bn = some bid →
      waitForBranchActive (w.branchInfos bid) 20 10 = .active c →
      truthyStr (w.branchInfos bid c).host = false →
      truthyStr (w.branchInfos bid (c + 1)).host = false →
      ∃ e, (ensureAdminCredential w bn ca).result = .error .missingHost ∧
        cacheGet (ensureAdminCredential w bn ca).cache (bn, ca.getD "") =
          some e ∧
        truthyStr e.host = false ∧
        .createAdminUser ∈ (ensureAdminCredential w bn ca).calls) := by
  constructor
  · intro w bn ca h
    rcases ensure_cache_or_admin w bn ca with hc | hm
    · exact hc
    · exact absurd hm h
  · intro w bn ca bid c hca hauth hproj hbn hmiss hbid hwait hfirst0 hh2
    have hget := truthyStr_getD_ne ca hca
    rw [ensureAdminCredential, if_pos hauth, resolveCluster_truthyArg _ _ _ hca]
    simp only [hproj, Bool.not_true, Bool.false_eq_true, if_false,
      getCachedAdminCredential, hmiss]
    simp only [slowPath, hbid, hwait,
      createAdminUserForBranch_reduce w.projectId w.clusterIdEnv w.apiClusters
        (ca.getD "") bn w.adminUser hproj hget hbn,
      hfirst0, Bool.false_and, Bool.not_false, if_true, List.nil_append]
    refine ⟨⟨bn, ca.getD "", w.adminUser.username, w.adminUser.password,
      (w.branchInfos bid (c + 1)).host, (w.branchInfos bid (c + 1)).port,
      if truthyStr w.defaultDatabase then w.defaultDatabase.getD ""
        else ""⟩, ?_, ?_, ?_, ?_⟩
    · show finalizePayload w.defaultDatabase _ = _
      rw [finalizePayload]
      rw [if_pos (by simp [hh2])]
    · exact cacheGet_cacheSet_self _ _ _
    · exact hh2
    · simp

/-- Witness for the amended C6: a resolution that made no admin call (the
project id is missing) leaves the cache unchanged, and a slow-path run
against a branch that never exposes endpoints writes the hostless record
and then fails with the missing-host error. -/
theorem ensure_store_despite_incomplete_endpoints_witness :
    (ensureAdminCredential
      ⟨true, none, some "c1", [], [], fun _ _ => ⟨none, none, none, none⟩,
        ⟨"", ""⟩, none, [(("b", "c1"), ⟨"b", "c1", "u", "pw", some "h",
          some 4000, "d"⟩)]⟩ "b" (some "c1")).cache =
      [(("b", "c1"), ⟨"b", "c1", "u", "pw", some "h", some 4000, "d"⟩)]
    ∧ ∃ e, (ensureAdminCredential c6world "b" (some "c1")).result =
        .error .missingHost ∧
      cacheGet (ensureAdminCredential c6world "b" (some "c1")).cache
        ("b", "c1") = some e ∧
      truthyStr e.host = false ∧
      .createAdminUser ∈ (ensureAdminCredential c6world "b" (some "c1")).calls := by
  constructor
  · exact ensure_store_despite_incomplete_endpoints.1
      ⟨true, none, some "c1", [], [], fun _ _ => ⟨none, none, none, none⟩,
        ⟨"", ""⟩, none, [(("b", "c1"), ⟨"b", "c1", "u", "pw", some "h",
          some 4000, "d"⟩)]⟩ "b" (some "c1") (by decide)
  · exact ensure_store_despite_incomplete_endpoints.2 c6world "b" (some "c1")
      "bid" 1 (by decide) (by decide) (by decide) (by decide) (by decide)
      (by decide) (by decide) (by decide) (by decide)

lemma resolveCluster_calls (a m : Option String) (api : List String) :
    (resolveCluster a m api).2.2 = [] ∨
    (resolveCluster a m api).2.2 = [.listClusters] := by
  rw [resolveCluster.eq_def]
  split
  · left; rfl
  · split
    · left; rfl
    · cases api
      · right; rfl
      · right; rfl

lemma createAdminUserForBranch_no_createBranch (p m : Option String)
    (api : List String) (cl bn : String) (a : AdminInfo)
    (res : Except BrokerErr AdminInfo) (m2 : Option String)
    (cs2 : List NetCall)
    (h : createAdminUserForBranch p m api cl bn a = (res, m2, cs2)) :
    .createBranch ∉ cs2 := by
  have hcs := resolveCluster_calls (some cl) m api
  unfold createAdminUserForBranch at h
  rcases hrc : resolveCluster (some cl) m api with ⟨er | c0, m1, cs⟩ <;>
    rw [hrc] at hcs h <;> simp only [] at hcs h
  all_goals try split at h
  all_goals rcases hcs with rfl | rfl
  all_goals
    have h3 := congrArg (fun t : Except BrokerErr AdminInfo × Option String ×
      List NetCall => t.2.2) h
  all_goals simp only [] at h3
  all_goals rw [← h3]
  all_goals decide

lemma slowPath_no_createBranch (w : World) (bn cluster : String)
    (memo : Option String) (cs : List NetCall)
    (h : .createBranch ∉ cs) :
    .createBranch ∉ (slowPath w bn cluster memo cs).calls := by
  rcases hr : resolveBranchId w.branches bn with _ | bid
  · simp [slowPath, hr, h]
  · rcases hw : waitForBranchActive (w.branchInfos bid) 20 10 with c | bound
    · rcases hadm : createAdminUserForBranch w.projectId memo w.apiClusters
        cluster bn w.adminUser with ⟨er | ad, memo2, cs2⟩ <;>
        have hno := createAdminUserForBranch_no_createBranch _ _ _ _ _ _ _ _ _
          hadm
      · simp only [slowPath, hr, hw, hadm]
        simp [List.mem_append, List.mem_replicate, h, hno]
      · by_cases hb : (!(truthyStr (w.branchInfos bid c).host &&
            truthyPort (w.branchInfos bid c).port)) = true
        · simp only [slowPath, hr, hw, hadm, hb, if_true]
          simp [List.mem_append, List.mem_replicate, h, hno]
        · have hb2 : (!(truthyStr (w.branchInfos bid c).host &&
              truthyPort (w.branchInfos bid c).port)) = false := by
            simpa using hb
          simp only [slowPath, hr, hw, hadm, hb2, Bool.false_eq_true, if_false]
          simp [List.mem_append, List.mem_replicate, h, hno]
    · simp [slowPath, hr, hw, h, List.mem_replicate]

/-- C8: branch-name resolution scans the branch list for an exact display
name match, so with no matching branch it yields nothing; on a cache miss
the resolution then fails with the not-found error for that name; and no
resolution call ever issues a branch-creation request. -/
theorem ensure_branch_not_found :
    (∀ (bs : List ListedBranch) (name : String),
      (∀ b ∈ bs, b.displayName ≠ some name) →
      resolveBranchId bs name = none)
    ∧ (∀ (w : World) (bn : String) (ca : Option String),
      truthyStr ca = true → w.authConfigured = true →
      truthyStr w.projectId = true →
      cacheGet w.cache (bn, ca.getD "") = none →
      (∀ b ∈ w.branches, b.displayName ≠ some bn) →
      (ensureAdminCredential w bn ca).result = .error (.branchNotFound bn))
    ∧ (∀ (w : World) (bn : String) (ca : Option String),
      .createBranch ∉ (ensureAdminCredential w bn ca).calls) := by
  refine ⟨resolveBranchId_eq_none, ?_, ?_⟩
  · intro w bn ca hca hauth hproj hmiss hnone
    rw [ensureAdminCredential, if_pos hauth, resolveCluster_truthyArg _ _ _ hca]
    simp only [hproj, Bool.not_true, Bool.false_eq_true, if_false,
      getCachedAdminCredential, hmiss]
    simp [slowPath, resolveBranchId_eq_none w.branches bn hnone]
  · intro w bn ca
    by_cases hauth : w.authConfigured = true
    · rcases hrc : resolveCluster ca w.clusterIdEnv w.apiClusters with
        ⟨er | cl, memo1, cs⟩ <;>
        have hcs := resolveCluster_calls ca w.clusterIdEnv w.apiClusters <;>
        rw [hrc] at hcs <;> simp only [] at hcs
      · simp only [ensureAdminCredential, hauth, if_true, hrc]
        rcases hcs with rfl | rfl <;> decide
      · by_cases hproj : truthyStr w.projectId = true
        · rcases hc : getCachedAdminCredential w.cache bn cl with _ | r
          · simp only [ensureAdminCredential, hauth, if_true, hrc, hproj,
              Bool.not_true, Bool.false_eq_true, if_false, hc]
            refine slowPath_no_createBranch w bn cl memo1 cs ?_
            rcases hcs with rfl | rfl <;> decide
          · by_cases hu : (truthyStr r.host && truthyPort r.port) = true
            · simp only [ensureAdminCredential, hauth, if_true, hrc, hproj,
                Bool.not_true, Bool.false_eq_true, if_false, hc, hu]
              rcases hcs with rfl | rfl <;> decide
            · simp only [ensureAdminCredential, hauth, if_true, hrc, hproj,
                Bool.not_true, Bool.false_eq_true, if_false, hc]
              rw [if_neg hu]
              refine slowPath_no_createBranch w bn cl memo1 cs ?_
              rcases hcs with rfl | rfl <;> decide
        · simp only [ensureAdminCredential, hauth, if_true, hrc]
          simp only [hproj, Bool.not_false]
          rcases hcs with rfl | rfl <;> simp
    · simp [ensureAdminCredential, hauth]

/-- Witness for C8: no branch in the listed two is named "missing", so
its resolution yields nothing, a cache-miss resolution for "missing"
fails with the not-found error, and the trace of that call contains no
branch-creation request. -/
theorem ensure_branch_not_found_witness :
    resolveBranchId [⟨some "a", some "ida"⟩, ⟨some "b", some "idb"⟩]
      "missing" = none
    ∧ (ensureAdminCredential
      ⟨true, some "p", some "c1", [],
        [⟨some "a", some "ida"⟩, ⟨some "b", some "idb"⟩],
        fun _ _ => ⟨some "ACTIVE", none, none, none⟩, ⟨"u", "pw"⟩, none, []⟩
      "missing" (some "c1")).result = .error (.branchNotFound "missing")
    ∧ .createBranch ∉ (ensureAdminCredential
      ⟨true, some "p", some "c1", [],
        [⟨some "a", some "ida"⟩, ⟨some "b", some "idb"⟩],
        fun _ _ => ⟨some "ACTIVE", none, none, none⟩, ⟨"u", "pw"⟩, none, []⟩
      "missing" (some "c1")).calls := by
  refine ⟨?_, ?_, ?_⟩
  · exact ensure_branch_not_found.1
      [⟨some "a", some "ida"⟩, ⟨some "b", some "idb"⟩] "missing" (by decide)
  · exact ensure_branch_not_found.2.1
      ⟨true, some "p", some "c1", [],
        [⟨some "a", some "ida"⟩, ⟨some "b", some "idb"⟩],
        fun _ _ => ⟨some "ACTIVE", none, none, none⟩, ⟨"u", "pw"⟩, none, []⟩
      "missing" (some "c1") (by decide) (by decide) (by decide) (by decide)
      (by decide)
  · exact ensure_branch_not_found.2.2
      ⟨true, some "p", some "c1", [],
        [⟨some "a", some "ida"⟩, ⟨some "b", some "idb"⟩],
        fun _ _ => ⟨some "ACTIVE", none, none, none⟩, ⟨"u", "pw"⟩, none, []⟩
      "missing" (some "c1")

/-- C10: the branch-scoped statement executor classifies a statement as a
read exactly when its whitespace-stripped, lowercased text starts with
"select": the classification is literally that test; on it the executor
returns the materialized row set, and on every other statement — even a
row-returning one not starting with "select" — it runs the write path and
returns rowcount, success flag and message. -/
theorem run_sql_on_branch_classification :
    (∀ sql : String, isSelect sql =
      startsWithChars "select".data ((pyStrip sql.data).map Char.toLower))
    ∧ (∀ (w : World) (conn : DbConn) (bn sql : String) (p : Payload),
      (ensureAdminCredential w bn none).result = .ok p →
      (isSelect sql = true →
        runSqlOnBranch w conn bn sql = .ok (.rows bn (conn.query sql)))
      ∧ (isSelect sql = false →
        runSqlOnBranch w conn bn sql =
          .ok (.write bn (conn.exec sql).rowcount (conn.exec sql).success
            (conn.exec sql).message))
      ∧ ((∃ rs, runSqlOnBranch w conn bn sql = .ok (.rows bn rs)) ↔
        isSelect sql = true)) := by
  refine ⟨fun _ => rfl, ?_⟩
  intro w conn bn sql p h
  obtain ⟨hh, hp2⟩ := ensure_ok_hostport w bn none p h
  have hread : isSelect sql = true →
      runSqlOnBranch w conn bn sql = .ok (.rows bn (conn.query sql)) := by
    intro hs
    rw [runSqlOnBranch, h]
    simp [hh, hp2, hs]
  have hwrite : isSelect sql = false →
      runSqlOnBranch w conn bn sql =
        .ok (.write bn (conn.exec sql).rowcount (conn.exec sql).success
          (conn.exec sql).message) := by
    intro hs
    rw [runSqlOnBranch, h]
    simp [hh, hp2, hs]
  refine ⟨hread, hwrite, ?_, ?_⟩
  · rintro ⟨rs, hrs⟩
    by_cases hs : isSelect sql = true
    · exact hs
    · rw [hwrite (by simpa using hs)] at hrs
      cases hrs
  · intro hs
    exact ⟨conn.query sql, hread hs⟩

/-- Witness for C10: with a usable cached credential, "  SELECT 1" runs
the read path and returns the connection's rows, while "show tables" —
a row-returning statement that does not start with "select" — runs the
write path and returns the rowcount, success flag and message. -/
theorem run_sql_on_branch_classification_witness :
    runSqlOnBranch
      ⟨true, some "p", some "c1", [], [],
        fun _ _ => ⟨none, none, none, none⟩, ⟨"", ""⟩, none,
        [(("b", "c1"), ⟨"b", "c1", "u", "pw", some "h", some 4000, "d"⟩)]⟩
      ⟨fun _ => [[("col", "1")]], fun _ => ⟨3, true, "ok"⟩⟩ "b" "  SELECT 1" =
      .ok (.rows "b" [[("col", "1")]])
    ∧ runSqlOnBranch
      ⟨true, some "p", some "c1", [], [],
        fun _ _ => ⟨none, none, none, none⟩, ⟨"", ""⟩, none,
        [(("b", "c1"), ⟨"b", "c1", "u", "pw", some "h", some 4000, "d"⟩)]⟩
      ⟨fun _ => [[("col", "1")]], fun _ => ⟨3, true, "ok"⟩⟩ "b" "show tables" =
      .ok (.write "b" 3 true "ok") := by
  constructor
  · exact ((run_sql_on_branch_classification.2
      ⟨true, some "p", some "c1", [], [],
        fun _ _ => ⟨none, none, none, none⟩, ⟨"", ""⟩, none,
        [(("b", "c1"), ⟨"b", "c1", "u", "pw", some "h", some 4000, "d"⟩)]⟩
      ⟨fun _ => [[("col", "1")]], fun _ => ⟨3, true, "ok"⟩⟩ "b" "  SELECT 1"
      ⟨"cache", ⟨"b", "c1", "u", "pw", some "h", some 4000, "d"⟩⟩
      (by decide)).1) (by decide)
  · exact ((run_sql_on_branch_classification.2
      ⟨true, some "p", some "c1", [], [],
        fun _ _ => ⟨none, none, none, none⟩, ⟨"", ""⟩, none,
        [(("b", "c1"), ⟨"b", "c1", "u", "pw", some "h", some 4000, "d"⟩)]⟩
      ⟨fun _ => [[("col", "1")]], fun _ => ⟨3, true, "ok"⟩⟩ "b" "show tables"
      ⟨"cache", ⟨"b", "c1", "u", "pw", some "h", some 4000, "d"⟩⟩
      (by decide)).2.1) (by decide)

end TidbAgent
